import Mathlib

/-!
Shallow embedding of the billing system core (React/TypeScript single-page
app for a small oil-mill retail shop).  The embedding models the five
source files:

* `App.tsx` (src/unnamed/part_000): application state and the event
  handlers `loadProducts`, `handleAddProduct`, `handleDeleteProduct`,
  `handleGenerateBill`, `handleSaveInvoice`, the `onAuthStateChanged`
  effect, and navigation handlers.
* `types.ts` (src/unnamed/part_001): `Product`, `BillItem`, `InvoiceData`.
* `BillHistory.tsx` (src/components and src/unnamed/part_002):
  `fetchInvoices` and the client-side `filteredInvoices` search filter.
* `ProductManager.tsx`: validation boundary (not needed by the claims).

Modelling conventions:
* JavaScript strings are modelled as `List Char` (`Str`); `String.includes`
  is char-level substring search, `String.toLowerCase` maps
  `Char.toLower` (ASCII lowering; the inputs of interest are ASCII).
* JavaScript numbers holding money are modelled as `ℚ` (the spec demands
  exact arithmetic through tax application); product ids as `ℤ`;
  timestamps (epoch milliseconds) as `ℕ`.
* Firestore is an external collaborator: each remote operation's outcome
  is passed in explicitly (`Except Unit _`), and a query's result set is
  derived from an explicit model of the stored collection.  `orderBy` is
  modelled with the stable `List.insertionSort`.
* React `useState` state is a record `AppState` (resp. `HistoryState`);
  each event handler is a function from the pre-state (plus remote
  outcomes) to the post-state together with its observable result.
-/

namespace Billing

/-- JavaScript strings, modelled at the character-sequence level. -/
abbrev Str := List Char

/-- JS truthiness of an optional string (`undefined` and `""` are falsy). -/
def strTruthy : Option Str → Bool
  | none => false
  | some s => !s.isEmpty

/-- `types.ts`: a catalog product.  `docId` is the Firestore document id
(absent for seeded constants). -/
structure Product where
  id : ℤ
  name : Str
  price : ℚ
  docId : Option Str
deriving DecidableEq

/-- `types.ts`: one line of a bill: a product snapshot plus a quantity. -/
structure BillItem where
  product : Product
  quantity : ℚ
  lineId : Option Str
deriving DecidableEq

/-- `types.ts`: an invoice.  `id` is the Firestore document id (present
iff persisted), `date` and `createdAt` are epoch-millisecond timestamps. -/
structure InvoiceData where
  id : Option Str
  invoiceNumber : Str
  date : ℕ
  customerName : Str
  customerPhone : Str
  items : List BillItem
  subtotal : ℚ
  gstAmount : ℚ
  grandTotal : ℚ
  userId : Str
  createdAt : Option ℕ
deriving DecidableEq

/-- `App.tsx`: the three navigation views. -/
inductive View where
  | form
  | history
  | products
deriving DecidableEq

/-- `App.tsx`: the `useState` cells of the `App` component. -/
structure AppState where
  user : Option Str
  loading : Bool
  view : View
  currentInvoice : Option InvoiceData
  products : List Product
deriving DecidableEq

/-- Modelled from the spec: `GST_RATE` lives in `constants.ts`, which is
not part of the given sources; the spec's example scenario fixes
`TAX_RATE = 0.05`. -/
def GST_RATE : ℚ := 5 / 100

/-- Modelled from the spec: `PRODUCTS` (the fixed built-in default
catalog) lives in `constants.ts`, which is not part of the given sources;
the spec's example scenario exhibits the entry
`{id: 1, name: "Groundnut Oil 1L", price: 250}`. -/
def PRODUCTS : List Product :=
  [⟨1, "Groundnut Oil 1L".toList, 250, none⟩]

/-- `App.tsx`: the initial component state (`useState` initialisers). -/
def initialAppState : AppState :=
  { user := none, loading := true, view := View.form,
    currentInvoice := none, products := PRODUCTS }

/-! ### String primitives (JS built-ins used by the source) -/

/-- Does `p` occur at the start of `s`?  (Helper for `strIncludes`.) -/
def startsWithStr : Str → Str → Bool
  | _, [] => true
  | [], _ :: _ => false
  | c :: s, d :: p => decide (c = d) && startsWithStr s p

/-- JS `s.includes(pat)`: does `pat` occur as a contiguous substring of
`s`? -/
def strIncludes : Str → Str → Bool
  | [], pat => startsWithStr [] pat
  | c :: s, pat => startsWithStr (c :: s) pat || strIncludes s pat

/-- JS `s.toLowerCase()` (ASCII fragment, via `Char.toLower`). -/
def toLowerStr (s : Str) : Str := s.map Char.toLower

/-- Case-insensitive substring test, as used by the history filter
(`a.toLowerCase().includes(b.toLowerCase())`). -/
def ciIncludes (s pat : Str) : Bool :=
  strIncludes (toLowerStr s) (toLowerStr pat)

/-! ### Decimal rendering of numbers and dates

`Date.now()` timestamps are rendered two ways by the source: embedded in
the invoice number (`BSMOM-${Date.now()}`) and formatted by
`Date.toLocaleDateString('en-IN')` ("d/m/yyyy", no zero padding).  Both
renderings are modelled executably. -/

/-- The character for a single decimal digit (`0 ≤ n ≤ 9`). -/
def natDigitChar (n : ℕ) : Char := Char.ofNat (48 + n % 10)

/-- Decimal digits of `n`, most significant first (fuel-based so that the
kernel can evaluate it). -/
def natDigitsAux : ℕ → ℕ → List Char
  | 0, _ => []
  | fuel + 1, n =>
    if n < 10 then [natDigitChar n]
    else natDigitsAux fuel (n / 10) ++ [natDigitChar (n % 10)]

/-- Decimal rendering of a natural number (JS number-to-string on a
nonnegative integer). -/
def natToStr (n : ℕ) : Str := natDigitsAux (n + 1) n

/-- Civil date (day, month, year) of a day count since 1970-01-01
(proleptic Gregorian; Howard Hinnant's `civil_from_days`). -/
def civilFromDays (days : ℕ) : ℕ × ℕ × ℕ :=
  let z := days + 719468
  let era := z / 146097
  let doe := z % 146097
  let yoe := (doe - doe / 1460 + doe / 36524 - doe / 146096) / 365
  let y := yoe + era * 400
  let doy := doe - (365 * yoe + yoe / 4 - yoe / 100)
  let mp := (5 * doy + 2) / 153
  let d := doy - (153 * mp + 2) / 5 + 1
  let m := if mp < 10 then mp + 3 else mp - 9
  (d, m, if m ≤ 2 then y + 1 else y)

/-- JS `date.toLocaleDateString('en-IN')` on an epoch-millisecond
timestamp: "d/m/yyyy" with no zero padding. -/
def formatDateEnIN (ms : ℕ) : Str :=
  let c := civilFromDays (ms / 86400000)
  natToStr c.1 ++ '/' :: natToStr c.2.1 ++ '/' :: natToStr c.2.2

/-! ### App.tsx event handlers

Remote (Firestore) operations are external collaborators: each handler
takes the outcome of the remote call it would issue as an explicit
argument, and reports the remote operations it actually issued. -/

/-- An issued remote (Firestore) write operation. -/
inductive RemoteOp where
  | addProduct (id : ℤ) (name : Str) (price : ℚ)
  | deleteProduct (ref : Str)
  | addInvoice (inv : InvoiceData)
deriving DecidableEq

/-- `App.tsx` `loadProducts` query result: `getDocs(query(productsRef,
orderBy('id', 'asc')))` — the stored product documents ordered by `id`
ascending (stable). -/
structure ProductDoc where
  ref : Str
  id : ℤ
  name : Str
  price : ℚ
deriving DecidableEq

/-- Ascending order on stored product documents, by `id`. -/
def prodLE (a b : ProductDoc) : Prop := a.id ≤ b.id

instance : DecidableRel prodLE := fun a b => Int.decLe a.id b.id

instance : IsTotal ProductDoc prodLE := ⟨fun a b => Int.le_total a.id b.id⟩

instance : IsTrans ProductDoc prodLE := ⟨fun _ _ _ h h' => le_trans h h'⟩

/-- The result set of the products query (`orderBy('id', 'asc')`). -/
def getDocsProducts (store : List ProductDoc) : List ProductDoc :=
  List.insertionSort prodLE store

/-- Mapping a fetched document to a working-catalog `Product`
(`{ id: d.data().id, name: …, price: …, docId: d.id }`). -/
def docToProduct (d : ProductDoc) : Product :=
  { id := d.id, name := d.name, price := d.price, docId := some d.ref }

/-- `App.tsx` `loadProducts` (mount effect): on a non-empty successful
snapshot the catalog is replaced by the mapped documents; on an empty
snapshot nothing is set; on a thrown error the catalog is set to the
built-in `PRODUCTS`. -/
def loadProducts (s : AppState) (outcome : Except Unit (List ProductDoc)) :
    AppState :=
  match outcome with
  | Except.ok docs =>
    if docs.isEmpty then s
    else { s with products := docs.map docToProduct }
  | Except.error _ => { s with products := PRODUCTS }

/-- `App.tsx` `handleAddProduct`: computes `nextId = 1 + reduce max 0`,
issues the remote create, and only on success appends the new product;
on failure it alerts (reported here as `false`) and leaves the catalog
unchanged. -/
def handleAddProduct (s : AppState) (name : Str) (price : ℚ)
    (remote : Except Unit Str) : AppState × Bool :=
  let maxId := s.products.foldl (fun m p => max m p.id) 0
  let nextId := maxId + 1
  match remote with
  | Except.ok ref =>
    ({ s with products :=
        s.products ++ [{ id := nextId, name := name, price := price,
                         docId := some ref }] }, true)
  | Except.error _ => (s, false)

/-- `App.tsx` `handleDeleteProduct`, resolution of the Firestore document
to delete: the passed `docId` if truthy, else the `docId` of the first
catalog entry with the given `id` and a truthy `docId`. -/
def resolveDeleteTarget (products : List Product) (id : ℤ)
    (docId : Option Str) : Option Str :=
  if strTruthy docId then docId
  else
    match products.find? (fun p => decide (p.id = id) && strTruthy p.docId) with
    | some toDelete => if strTruthy toDelete.docId then toDelete.docId else none
    | none => none

/-- `App.tsx` `handleDeleteProduct`: remote-first delete.  If a remote
target resolves, the remote delete is issued; a thrown error alerts and
returns early (catalog untouched, reported `false`).  Otherwise — and
after a successful remote delete — every product with the given `id` is
filtered out of the catalog. -/
def handleDeleteProduct (s : AppState) (id : ℤ) (docId : Option Str)
    (remote : Str → Except Unit Unit) : AppState × List RemoteOp × Bool :=
  match resolveDeleteTarget s.products id docId with
  | some ref =>
    match remote ref with
    | Except.error _ => (s, [RemoteOp.deleteProduct ref], false)
    | Except.ok _ =>
      ({ s with products := s.products.filter (fun p => decide (p.id ≠ id)) },
       [RemoteOp.deleteProduct ref], true)
  | none =>
    ({ s with products := s.products.filter (fun p => decide (p.id ≠ id)) },
     [], true)

/-- The spec's invoice-total formula: `subtotal =
Σ (item.product.price × item.quantity)`. -/
def sumItems (items : List BillItem) : ℚ :=
  (items.map (fun it => it.product.price * it.quantity)).sum

/-- `App.tsx` `handleGenerateBill`: requires a logged-in user (else it
alerts and leaves the state untouched); computes `subtotal` by
`reduce`, `gstAmount = subtotal * GST_RATE`, `grandTotal = subtotal +
gstAmount`; stamps `invoiceNumber` from `Date.now()` and sets the draft
as the current invoice.  No remote call is ever issued. -/
def handleGenerateBill (s : AppState) (now : ℕ)
    (customerName customerPhone : Str) (billItems : List BillItem) :
    AppState × List RemoteOp :=
  match s.user with
  | none => (s, [])
  | some uid =>
    let subtotal := billItems.foldl
      (fun acc item => acc + item.product.price * item.quantity) 0
    let gstAmount := subtotal * GST_RATE
    let grandTotal := subtotal + gstAmount
    let invoiceBaseData : InvoiceData :=
      { id := none,
        invoiceNumber := "BSMOM-".toList ++ natToStr now,
        date := now,
        customerName := customerName,
        customerPhone := customerPhone,
        items := billItems,
        subtotal := subtotal,
        gstAmount := gstAmount,
        grandTotal := grandTotal,
        userId := uid,
        createdAt := none }
    ({ s with currentInvoice := some invoiceBaseData }, [])

/-- `App.tsx` `handleSaveInvoice`: requires a logged-in user (else it
alerts and returns `undefined`, modelled `none`); issues the remote
create; on success attaches the remote document id to the in-memory
current invoice and returns `true`; on a thrown error alerts, leaves the
state untouched and returns `false`. -/
def handleSaveInvoice (s : AppState) (invoiceData : InvoiceData)
    (remote : Except Unit Str) : AppState × Option Bool :=
  match s.user with
  | none => (s, none)
  | some _ =>
    match remote with
    | Except.ok ref =>
      ({ s with currentInvoice := some ({ invoiceData with id := some ref }) },
       some true)
    | Except.error _ => (s, some false)

/-- `App.tsx` `onAuthStateChanged` subscription: on every identity
change the user is stored, loading ends, the view resets to the billing
form and the current invoice is dropped. -/
def handleAuthChanged (s : AppState) (user : Option Str) : AppState :=
  { s with user := user, loading := false, view := View.form,
           currentInvoice := none }

/-! ### BillHistory.tsx: history query and client-side filter -/

/-- A persisted invoice document in the remote `invoices` collection:
the saved `InvoiceData` fields plus the server-assigned `createdAt`
timestamp; `ref` is the Firestore document id. -/
structure InvoiceRecord where
  ref : Str
  invoiceNumber : Str
  customerName : Str
  customerPhone : Str
  items : List BillItem
  subtotal : ℚ
  gstAmount : ℚ
  grandTotal : ℚ
  userId : Str
  createdAt : ℕ
deriving DecidableEq

/-- Descending order on stored invoices, by server `createdAt`. -/
def invGE (a b : InvoiceRecord) : Prop := b.createdAt ≤ a.createdAt

instance : DecidableRel invGE := fun a b => Nat.decLe b.createdAt a.createdAt

instance : IsTotal InvoiceRecord invGE :=
  ⟨fun a b => Nat.le_total b.createdAt a.createdAt⟩

instance : IsTrans InvoiceRecord invGE :=
  ⟨fun _ _ _ h h' => le_trans h' h⟩

/-- `BillHistory.tsx` `fetchInvoices` query: `where('userId', '==',
user.uid)` then `orderBy('createdAt', 'desc')` (stable). -/
def queryInvoicesDocs (store : List InvoiceRecord) (uid : Str) :
    List InvoiceRecord :=
  List.insertionSort invGE (store.filter (fun r => decide (r.userId = uid)))

/-- `BillHistory.tsx`: mapping a fetched document to an `InvoiceData`
(`{ id: doc.id, ...data, date: data.createdAt.toDate() }`). -/
def recordToInvoice (r : InvoiceRecord) : InvoiceData :=
  { id := some r.ref,
    invoiceNumber := r.invoiceNumber,
    date := r.createdAt,
    customerName := r.customerName,
    customerPhone := r.customerPhone,
    items := r.items,
    subtotal := r.subtotal,
    gstAmount := r.gstAmount,
    grandTotal := r.grandTotal,
    userId := r.userId,
    createdAt := some r.createdAt }

/-- `BillHistory.tsx`: the `useState` cells of the component. -/
structure HistoryState where
  invoices : List InvoiceData
  loading : Bool
  error : Option Str
deriving DecidableEq

/-- The user-visible history fetch error message. -/
def fetchErrorMsg : Str := "Failed to fetch invoice history.".toList

/-- `BillHistory.tsx` `fetchInvoices` (mount effect, from the initial
state `{invoices := [], loading := true, error := none}`): on success the
mapped query results are stored; on a thrown error the error message is
set and the invoice list keeps its initial empty value. -/
def fetchInvoices (store : List InvoiceRecord) (uid : Str) (fail : Bool) :
    HistoryState :=
  if fail then { invoices := [], loading := false, error := some fetchErrorMsg }
  else
    { invoices := (queryInvoicesDocs store uid).map recordToInvoice,
      loading := false, error := none }

/-- `BillHistory.tsx` `filteredInvoices` predicate:
`invoice.invoiceNumber.toLowerCase().includes(searchTerm.toLowerCase()) ||
invoice.customerName.toLowerCase().includes(searchTerm.toLowerCase()) ||
invoice.date.toLocaleDateString('en-IN').includes(searchTerm)`. -/
def matchesSearch (invoice : InvoiceData) (searchTerm : Str) : Bool :=
  ciIncludes invoice.invoiceNumber searchTerm ||
  ciIncludes invoice.customerName searchTerm ||
  strIncludes (formatDateEnIN invoice.date) searchTerm

/-- `BillHistory.tsx` `filteredInvoices`: pure filter over the fetched
list; no remote access. -/
def filteredInvoices (invoices : List InvoiceData) (searchTerm : Str) :
    List InvoiceData :=
  invoices.filter (fun invoice => matchesSearch invoice searchTerm)

/-- The spec's wording of the history filter predicate: invoice number,
customer name, or formatted date contains the term as a
**case-insensitive** substring.  (The source applies the raw term to the
formatted date; the two agree because formatted dates contain only
digits and slashes — see `matchesSearch_eq_specMatches`.) -/
def specMatches (invoice : InvoiceData) (searchTerm : Str) : Bool :=
  ciIncludes invoice.invoiceNumber searchTerm ||
  ciIncludes invoice.customerName searchTerm ||
  ciIncludes (formatDateEnIN invoice.date) searchTerm

/-! ### Helper lemmas -/

theorem foldl_add_sum (f : α → ℚ) (l : List α) (a : ℚ) :
    l.foldl (fun acc x => acc + f x) a = a + (l.map f).sum := by
  induction l generalizing a with
  | nil => simp
  | cons x xs ih => simp [ih, add_assoc]

/-- C1: the generated draft invoice satisfies `subtotal =
Σ (item.product.price × item.quantity)` (the code's `reduce` equals the
spec's `Σ`), `taxAmount (gstAmount) = subtotal × TAX_RATE` and
`grandTotal = subtotal + taxAmount`, for every sequence of line items. -/
theorem generateBill_characterisation (s : AppState) (now : ℕ)
    (cn cp : Str) (items : List BillItem) (uid : Str)
    (h : s.user = some uid) :
    handleGenerateBill s now cn cp items =
      ({ s with currentInvoice := some (
          { id := none,
            invoiceNumber := "BSMOM-".toList ++ natToStr now,
            date := now,
            customerName := cn,
            customerPhone := cp,
            items := items,
            subtotal := sumItems items,
            gstAmount := sumItems items * GST_RATE,
            grandTotal := sumItems items + sumItems items * GST_RATE,
            userId := uid,
            createdAt := none } : InvoiceData) }, []) := by
  simp only [handleGenerateBill, h, sumItems]
  rw [foldl_add_sum]
  simp

/-- The spec's example scenario: catalog entry `{id 1, "Groundnut Oil
1L", price 250}`, one line item of quantity 3, `TAX_RATE = 0.05` —
`subtotal = 750`, `taxAmount = 37.50`, `grandTotal = 787.50`. -/
theorem generateBill_characterisation_witness :
    (handleGenerateBill
        { user := some "op1".toList, loading := false, view := View.form,
          currentInvoice := none, products := PRODUCTS }
        1700000000000 "Ravi".toList "9876".toList
        [⟨⟨1, "Groundnut Oil 1L".toList, 250, none⟩, 3, none⟩]).1.currentInvoice.map
      (fun inv => (inv.subtotal, inv.gstAmount, inv.grandTotal)) =
      some (750, 75 / 2, 1575 / 2) := by
  rw [generateBill_characterisation _ _ _ _ _ "op1".toList rfl]
  simp [sumItems, GST_RATE]
  norm_num

/-- C2: with no operator identity, `handleGenerateBill` fails (alert),
performs no state transition and issues no remote call. -/
theorem generateBill_unauthorized (s : AppState) (now : ℕ) (cn cp : Str)
    (items : List BillItem) (h : s.user = none) :
    handleGenerateBill s now cn cp items = (s, []) := by
  simp [handleGenerateBill, h]

/-- C2 witness: a concrete logged-out call leaves the initial state
untouched and issues no remote operation. -/
theorem generateBill_unauthorized_witness :
    handleGenerateBill initialAppState 1700000000000 "Ravi".toList
      "9876".toList [⟨⟨1, "Groundnut Oil 1L".toList, 250, none⟩, 3, none⟩] =
      (initialAppState, []) :=
  generateBill_unauthorized _ _ _ _ _ rfl

/-- C3: on remote failure, `handleAddProduct` leaves the working catalog
unchanged and reports failure; on success it appends the new product with
`id = 1 + max(previous ids, default 0)` and the remote-assigned docId. -/
theorem addProduct_spec (s : AppState) (name : Str) (price : ℚ) (ref : Str) :
    handleAddProduct s name price (Except.error ()) = (s, false) ∧
    handleAddProduct s name price (Except.ok ref) =
      ({ s with products := s.products ++
          [{ id := 1 + (s.products.map Product.id).foldl max 0,
             name := name, price := price, docId := some ref }] }, true) := by
  constructor
  · rfl
  · simp [handleAddProduct, List.foldl_map, Int.add_comm]

/-- C9: every identity change (login or logout) drops the current
invoice and returns the session to the billing form, from every prior
state. -/
theorem authChanged_resets (s : AppState) (u : Option Str) :
    handleAuthChanged s u =
      { user := u, loading := false, view := View.form,
        currentInvoice := none, products := s.products } := rfl

/-- C5: with an operator logged in, a failing remote write leaves the
in-memory draft (and all state) unchanged and reports `false`, so the
identical save can be re-issued; a succeeding remote write installs the
same draft with the remote-assigned id as the current invoice and
reports `true`. -/
theorem saveInvoice_spec (s : AppState) (inv : InvoiceData) (uid ref : Str)
    (h : s.user = some uid) :
    handleSaveInvoice s inv (Except.error ()) = (s, some false) ∧
    handleSaveInvoice s inv (Except.ok ref) =
      ({ s with currentInvoice := some ({ inv with id := some ref }) },
       some true) := by
  constructor <;> simp [handleSaveInvoice, h]

/-- C5 witness: a concrete draft whose save first fails (state kept,
`false` reported) and then, re-issued unchanged, succeeds with the
remote id attached. -/
theorem saveInvoice_spec_witness :
    handleSaveInvoice
        { user := some "op1".toList, loading := false, view := View.form,
          currentInvoice := some
            ⟨none, "BSMOM-7".toList, 7, "Ravi".toList, "98".toList, [],
             750, 75 / 2, 1575 / 2, "op1".toList, none⟩,
          products := PRODUCTS }
        ⟨none, "BSMOM-7".toList, 7, "Ravi".toList, "98".toList, [],
         750, 75 / 2, 1575 / 2, "op1".toList, none⟩
        (Except.error ()) =
      ({ user := some "op1".toList, loading := false, view := View.form,
         currentInvoice := some
           ⟨none, "BSMOM-7".toList, 7, "Ravi".toList, "98".toList, [],
            750, 75 / 2, 1575 / 2, "op1".toList, none⟩,
         products := PRODUCTS }, some false) ∧
    handleSaveInvoice
        { user := some "op1".toList, loading := false, view := View.form,
          currentInvoice := some
            ⟨none, "BSMOM-7".toList, 7, "Ravi".toList, "98".toList, [],
             750, 75 / 2, 1575 / 2, "op1".toList, none⟩,
          products := PRODUCTS }
        ⟨none, "BSMOM-7".toList, 7, "Ravi".toList, "98".toList, [],
         750, 75 / 2, 1575 / 2, "op1".toList, none⟩
        (Except.ok "doc42".toList) =
      ({ user := some "op1".toList, loading := false, view := View.form,
         currentInvoice := some
           ⟨some "doc42".toList, "BSMOM-7".toList, 7, "Ravi".toList,
            "98".toList, [], 750, 75 / 2, 1575 / 2, "op1".toList, none⟩,
         products := PRODUCTS }, some true) := by
  have h := saveInvoice_spec
    { user := some "op1".toList, loading := false, view := View.form,
      currentInvoice := some
        ⟨none, "BSMOM-7".toList, 7, "Ravi".toList, "98".toList, [],
         750, 75 / 2, 1575 / 2, "op1".toList, none⟩,
      products := PRODUCTS }
    ⟨none, "BSMOM-7".toList, 7, "Ravi".toList, "98".toList, [],
     750, 75 / 2, 1575 / 2, "op1".toList, none⟩
    "op1".toList "doc42".toList rfl
  exact ⟨h.1, h.2⟩

/-- C4: whenever a remote delete target resolves, a failing remote
delete leaves the working catalog (indeed the whole state) unchanged and
reports failure; local removal happens only on remote success. -/
theorem deleteProduct_remote_first (s : AppState) (id : ℤ)
    (docId : Option Str) (ref : Str) (remote : Str → Except Unit Unit)
    (h : resolveDeleteTarget s.products id docId = some ref) :
    (remote ref = Except.error () →
      handleDeleteProduct s id docId remote =
        (s, [RemoteOp.deleteProduct ref], false)) ∧
    (remote ref = Except.ok () →
      handleDeleteProduct s id docId remote =
        ({ s with products := s.products.filter (fun p => decide (p.id ≠ id)) },
         [RemoteOp.deleteProduct ref], true)) := by
  constructor <;> intro hr <;> simp [handleDeleteProduct, h, hr]

/-- C4 witness: deleting a product whose catalog entry carries a remote
ref, with the remote delete failing, leaves the catalog untouched. -/
theorem deleteProduct_remote_first_witness :
    handleDeleteProduct
        { user := some "op1".toList, loading := false, view := View.form,
          currentInvoice := none,
          products := [⟨1, "A".toList, 5, some "d1".toList⟩] }
        1 none (fun _ => Except.error ()) =
      ({ user := some "op1".toList, loading := false, view := View.form,
         currentInvoice := none,
         products := [⟨1, "A".toList, 5, some "d1".toList⟩] },
       [RemoteOp.deleteProduct "d1".toList], false) :=
  (deleteProduct_remote_first _ 1 none "d1".toList _ (by decide)).1 rfl

/-- C10: `delete(id)` with no remote ref argument and no catalog entry
of that id carrying one issues no remote operation, succeeds, and
removes every product with that id from the working catalog. -/
theorem deleteProduct_local_only (s : AppState) (id : ℤ)
    (remote : Str → Except Unit Unit)
    (h : ∀ p ∈ s.products, p.id = id → strTruthy p.docId = false) :
    handleDeleteProduct s id none remote =
      ({ s with products := s.products.filter (fun p => decide (p.id ≠ id)) },
       [], true) := by
  have hfind : s.products.find?
      (fun p => decide (p.id = id) && strTruthy p.docId) = none := by
    rw [List.find?_eq_none]
    intro p hp
    simp only [Bool.and_eq_true, decide_eq_true_eq, not_and]
    intro hpid
    simp [h p hp hpid]
  have hres : resolveDeleteTarget s.products id none = none := by
    simp only [resolveDeleteTarget]
    rw [if_neg (by simp [strTruthy]), hfind]
  simp [handleDeleteProduct, hres]

/-- C10 witness: deleting a seeded (never-persisted) product removes it
locally, succeeds, and issues no remote delete. -/
theorem deleteProduct_local_only_witness :
    handleDeleteProduct
        { user := some "op1".toList, loading := false, view := View.form,
          currentInvoice := none,
          products := [⟨1, "A".toList, 5, none⟩, ⟨2, "B".toList, 6, none⟩] }
        1 none (fun _ => Except.error ()) =
      ({ user := some "op1".toList, loading := false, view := View.form,
         currentInvoice := none,
         products := [⟨2, "B".toList, 6, none⟩] }, [], true) := by
  have h := deleteProduct_local_only
    { user := some "op1".toList, loading := false, view := View.form,
      currentInvoice := none,
      products := [⟨1, "A".toList, 5, none⟩, ⟨2, "B".toList, 6, none⟩] }
    1 (fun _ => Except.error ()) (by decide)
  rw [h]
  rfl

/-- C6: the history fetch queries exactly the stored invoices whose
`userId` equals the operator identity, ordered by server `createdAt`
descending; each record maps to an invoice whose `date` is the server
`createdAt`; on remote failure the error message is surfaced and no
invoice data (partial or stale) is shown. -/
theorem historyQuery_spec (store : List InvoiceRecord) (uid : Str) :
    (∀ r, r ∈ queryInvoicesDocs store uid ↔ (r ∈ store ∧ r.userId = uid)) ∧
    List.Sorted invGE (queryInvoicesDocs store uid) ∧
    fetchInvoices store uid false =
      { invoices := (queryInvoicesDocs store uid).map recordToInvoice,
        loading := false, error := none } ∧
    (∀ r, (recordToInvoice r).date = r.createdAt) ∧
    fetchInvoices store uid true =
      { invoices := [], loading := false, error := some fetchErrorMsg } := by
  refine ⟨?_, List.sorted_insertionSort invGE _, rfl, fun r => rfl, rfl⟩
  intro r
  rw [queryInvoicesDocs, (List.perm_insertionSort invGE _).mem_iff,
    List.mem_filter]
  simp

/-- C8: a failing remote catalog load falls back to the built-in default
catalog; an empty successful snapshot keeps the default catalog; a
non-empty successful snapshot fully replaces the working catalog with
the fetched products, which are ordered by `id` ascending. -/
theorem loadProducts_spec (store : List ProductDoc) :
    (loadProducts initialAppState (Except.error ())).products = PRODUCTS ∧
    ((getDocsProducts store).isEmpty = true →
      (loadProducts initialAppState
        (Except.ok (getDocsProducts store))).products = PRODUCTS) ∧
    ((getDocsProducts store).isEmpty = false →
      (loadProducts initialAppState
          (Except.ok (getDocsProducts store))).products =
        (getDocsProducts store).map docToProduct ∧
      List.Perm (getDocsProducts store) store ∧
      ((loadProducts initialAppState
          (Except.ok (getDocsProducts store))).products).Pairwise
        (fun a b => a.id ≤ b.id)) := by
  refine ⟨rfl, ?_, ?_⟩
  · intro h
    simp [loadProducts, h, initialAppState]
  · intro h
    refine ⟨by simp [loadProducts, h], List.perm_insertionSort prodLE _, ?_⟩
    simp only [loadProducts, h, if_neg Bool.false_ne_true]
    rw [List.pairwise_map]
    exact List.sorted_insertionSort prodLE store

/-- C8 witness: a two-document remote catalog replaces the default
catalog with the fetched products sorted by `id` ascending. -/
theorem loadProducts_spec_witness :
    (loadProducts initialAppState
        (Except.ok (getDocsProducts
          [⟨"r1".toList, 2, "B".toList, 6⟩,
           ⟨"r2".toList, 1, "A".toList, 5⟩]))).products =
      [⟨1, "A".toList, 5, some "r2".toList⟩,
       ⟨2, "B".toList, 6, some "r1".toList⟩] := by
  have h := (loadProducts_spec
    [⟨"r1".toList, 2, "B".toList, 6⟩,
     ⟨"r2".toList, 1, "A".toList, 5⟩]).2.2 (by rfl)
  rw [h.1]
  rfl

/-! ### Case-insensitivity over formatted dates

The source lowers the search term for the invoice-number and
customer-name tests, but applies the raw term to the formatted date.
Formatted dates consist only of decimal digits and slashes, on which
lowering is the identity, so the raw test agrees with the
case-insensitive one. -/

/-- Is the character a decimal digit or a slash (the alphabet of
`formatDateEnIN` output)? -/
def digitOrSlash (c : Char) : Bool :=
  c.toNat == 47 || (decide (48 ≤ c.toNat) && decide (c.toNat ≤ 57))

theorem toLower_eq_self_of_digitOrSlash {c : Char}
    (h : digitOrSlash c = true) : c.toLower = c := by
  have hn : c.toNat ≤ 57 := by
    simp only [digitOrSlash, Bool.or_eq_true, beq_iff_eq, Bool.and_eq_true,
      decide_eq_true_eq] at h
    omega
  simp only [Char.toLower]
  rw [if_neg]
  omega

theorem eq_of_toLower_digitOrSlash {c : Char}
    (h : digitOrSlash c.toLower = true) : c.toLower = c := by
  by_cases hc : c.toNat ≥ 65 ∧ c.toNat ≤ 90
  · exfalso
    have hlow : c.toLower = Char.ofNat (c.toNat + 32) := by
      simp only [Char.toLower]
      rw [if_pos hc]
    rw [hlow] at h
    have h97 : 97 ≤ c.toNat + 32 := by omega
    have h122 : c.toNat + 32 ≤ 122 := by omega
    generalize c.toNat + 32 = m at h h97 h122
    interval_cases m <;> exact absurd h (by decide)
  · simp only [Char.toLower]
    rw [if_neg hc]

theorem toLowerStr_eq_self {s : Str}
    (hs : ∀ c ∈ s, digitOrSlash c = true) : toLowerStr s = s := by
  induction s with
  | nil => rfl
  | cons c cs ih =>
    simp only [toLowerStr, List.map_cons]
    rw [toLower_eq_self_of_digitOrSlash (hs c (List.mem_cons_self c cs))]
    have := ih (fun d hd => hs d (List.mem_cons_of_mem c hd))
    simp only [toLowerStr] at this
    rw [this]

theorem startsWithStr_toLower (s pat : Str)
    (hs : ∀ c ∈ s, digitOrSlash c = true) :
    startsWithStr s (toLowerStr pat) = startsWithStr s pat := by
  induction s generalizing pat with
  | nil => cases pat <;> simp [startsWithStr, toLowerStr]
  | cons c cs ih =>
    cases pat with
    | nil => rfl
    | cons d p =>
      simp only [toLowerStr, List.map_cons, startsWithStr]
      have htail := ih p (fun e he => hs e (List.mem_cons_of_mem c he))
      simp only [toLowerStr] at htail
      rw [htail]
      congr 1
      have hcd : c = d.toLower ↔ c = d := by
        have hcdig := hs c (List.mem_cons_self c cs)
        constructor
        · intro hcl
          have : digitOrSlash d.toLower = true := hcl ▸ hcdig
          rw [← eq_of_toLower_digitOrSlash this, hcl]
        · intro hcd
          subst hcd
          rw [toLower_eq_self_of_digitOrSlash hcdig]
      exact decide_eq_decide.mpr hcd

theorem strIncludes_toLower (s pat : Str)
    (hs : ∀ c ∈ s, digitOrSlash c = true) :
    strIncludes s (toLowerStr pat) = strIncludes s pat := by
  induction s with
  | nil =>
    simp only [strIncludes]
    exact startsWithStr_toLower [] pat hs
  | cons c cs ih =>
    simp only [strIncludes]
    rw [startsWithStr_toLower (c :: cs) pat hs,
      ih (fun e he => hs e (List.mem_cons_of_mem c he))]

theorem natDigitChar_digitOrSlash (n : ℕ) :
    digitOrSlash (natDigitChar n) = true := by
  have h : n % 10 < 10 := Nat.mod_lt _ (by omega)
  unfold natDigitChar
  generalize n % 10 = m at h
  interval_cases m <;> decide

theorem natDigitsAux_digitOrSlash (fuel n : ℕ) :
    ∀ c ∈ natDigitsAux fuel n, digitOrSlash c = true := by
  induction fuel generalizing n with
  | zero => simp [natDigitsAux]
  | succ fuel ih =>
    intro c hc
    unfold natDigitsAux at hc
    split at hc
    · rw [List.mem_singleton] at hc
      exact hc ▸ natDigitChar_digitOrSlash n
    · rw [List.mem_append] at hc
      rcases hc with hc | hc
      · exact ih (n / 10) c hc
      · rw [List.mem_singleton] at hc
        exact hc ▸ natDigitChar_digitOrSlash (n % 10)

theorem dateShape_digitOrSlash (d m y : ℕ) :
    ∀ c ∈ natToStr d ++ '/' :: natToStr m ++ '/' :: natToStr y,
      digitOrSlash c = true := by
  intro c hc
  rcases List.mem_append.mp hc with h1 | h1
  · rcases List.mem_append.mp h1 with h2 | h2
    · exact natDigitsAux_digitOrSlash _ _ c h2
    rcases List.mem_cons.mp h2 with h3 | h3
    · exact h3 ▸ (by decide)
    exact natDigitsAux_digitOrSlash _ _ c h3
  · rcases List.mem_cons.mp h1 with h2 | h2
    · exact h2 ▸ (by decide)
    exact natDigitsAux_digitOrSlash _ _ c h2

theorem formatDateEnIN_digitOrSlash (ms : ℕ) :
    ∀ c ∈ formatDateEnIN ms, digitOrSlash c = true :=
  dateShape_digitOrSlash _ _ _

/-- The source's filter predicate coincides with the spec's fully
case-insensitive one, because formatted dates contain only digits and
slashes. -/
theorem matchesSearch_eq_specMatches (inv : InvoiceData) (t : Str) :
    matchesSearch inv t = specMatches inv t := by
  unfold matchesSearch specMatches
  congr 1
  unfold ciIncludes
  rw [toLowerStr_eq_self (formatDateEnIN_digitOrSlash inv.date),
    strIncludes_toLower _ _ (formatDateEnIN_digitOrSlash inv.date)]

/-- A history invoice whose invoice number contains the search term. -/
def invA : InvoiceData :=
  ⟨some "i1".toList, "BSMOM-100".toList, 0, "Asha".toList, "11".toList,
   [], 0, 0, 0, "u".toList, none⟩

/-- A history invoice whose invoice number does not contain the search
term, but whose customer name does (case-insensitively). -/
def invB : InvoiceData :=
  ⟨some "i2".toList, "ZZZ".toList, 0, "bsmom-100 fan".toList, "22".toList,
   [], 0, 0, 0, "u".toList, none⟩

/-- C7 counterexample: the term "BSMOM-100" occurs (case-insensitively)
in exactly one invoice's `invoiceNumber`, yet the filter does not return
exactly that one invoice — the other invoice matches by customer name. -/
theorem historyFilter_counterexample :
    ciIncludes invA.invoiceNumber "BSMOM-100".toList = true ∧
    ciIncludes invB.invoiceNumber "BSMOM-100".toList = false ∧
    filteredInvoices [invA, invB] "BSMOM-100".toList = [invA, invB] ∧
    filteredInvoices [invA, invB] "BSMOM-100".toList ≠ [invA] := by
  decide

/-- C7 (amended): the filter keeps exactly the invoices whose invoice
number, customer name, or formatted date contains the term as a
case-insensitive substring (a pure function of the fetched list, no
remote query); and a term occurring in one invoice's invoice number and
matching no other invoice returns exactly that invoice. -/
theorem historyFilter_amended (l l₁ l₂ : List InvoiceData)
    (inv : InvoiceData) (t : Str) :
    (∀ x, x ∈ filteredInvoices l t ↔ (x ∈ l ∧ specMatches x t = true)) ∧
    (ciIncludes inv.invoiceNumber t = true →
      (∀ x ∈ l₁ ++ l₂, specMatches x t = false) →
      filteredInvoices (l₁ ++ inv :: l₂) t = [inv]) := by
  have hfe : ∀ l' : List InvoiceData,
      filteredInvoices l' t = l'.filter (fun x => specMatches x t) :=
    fun l' => List.filter_congr (fun x _ => matchesSearch_eq_specMatches x t)
  constructor
  · intro x
    rw [hfe, List.mem_filter]
  · intro hinv hrest
    rw [hfe, List.filter_append]
    have h1 : l₁.filter (fun x => specMatches x t) = [] := by
      rw [List.filter_eq_nil_iff]
      intro x hx
      simp [hrest x (List.mem_append_left _ hx)]
    have h2 : l₂.filter (fun x => specMatches x t) = [] := by
      rw [List.filter_eq_nil_iff]
      intro x hx
      simp [hrest x (List.mem_append_right _ hx)]
    have hpos : specMatches inv t = true := by
      simp [specMatches, hinv]
    rw [h1, @List.filter_cons_of_pos _ (fun x => specMatches x t) inv l₂ hpos,
      h2]
    rfl

/-- A history invoice for the amended-claim witness. -/
def invC : InvoiceData :=
  ⟨some "i3".toList, "BSMOM-2".toList, 0, "Meera".toList, "33".toList,
   [], 0, 0, 0, "u".toList, none⟩

/-- C7 (amended) witness: a term occurring (case-insensitively) in the
single fetched invoice's number returns exactly that invoice. -/
theorem historyFilter_amended_witness :
    filteredInvoices [invC] "bsmom-2".toList = [invC] :=
  (historyFilter_amended [invC] [] [] invC "bsmom-2".toList).2 (by decide)
    (fun x hx => absurd hx (by simp))

end Billing
